import Mathlib

/-
Verification of the migration coordination and range-deletion task lifecycle
(src/src/mongo/db/s/migration_util.cpp, the MigrationCoordinator interface)
and of ReadWriteConcernDefaults::setConcerns
(src/src/mongo/db/read_write_concern_defaults.cpp).

Shallow embedding: BSON keys are modelled as integers with their total order,
uuids as naturals, persisted stores as lists of records, and the fallible
persist operations as Except values carrying the numeric error code.
-/

namespace MigrationUtil

/-- The shard key space: BSON key values compared with the BSON total order,
modelled as integers. -/
abbrev Key := Int

/-- A half-open key interval [min, max), as in ChunkRange. -/
structure ChunkRange where
  min : Key
  max : Key
deriving DecidableEq, Repr

/-- Collection and migration identities (UUID in the source). -/
abbrev UUID := Nat

/-- CleanWhenEnum from the source: immediate or deferred physical deletion. -/
inductive CleanWhen where
  | kNow : CleanWhen
  | kDelayed : CleanWhen
deriving DecidableEq, Repr

/-- A persisted RangeDeletionTask record. The id is the owning migration id.
The source encodes pendingness as presence of the "pending" field; here
pendingFlag = true means that field is present. -/
structure RangeDeletionTask where
  id : UUID
  collectionUuid : UUID
  nss : String
  range : ChunkRange
  pendingFlag : Bool
  whenToClean : CleanWhen
deriving DecidableEq, Repr

/-- The predicate denoted by overlappingRangeQuery(range, uuid):
collectionUuid equals uuid, the stored range.min is LT the queried max, and
the stored range.max is GT the queried min. -/
def overlappingRangeQuery (range : ChunkRange) (uuid : UUID) (t : RangeDeletionTask) : Bool :=
  t.collectionUuid == uuid
    && decide (t.range.min < range.max)
    && decide (t.range.max > range.min)

/-- PersistentTaskStore::count for a Boolean query over the store contents. -/
def storeCount (store : List RangeDeletionTask) (q : RangeDeletionTask → Bool) : Nat :=
  (store.filter q).length

/-- checkForConflictingDeletions: count of tasks matching overlappingRangeQuery
is positive. -/
def checkForConflictingDeletions (store : List RangeDeletionTask)
    (range : ChunkRange) (uuid : UUID) : Bool :=
  decide (storeCount store (overlappingRangeQuery range uuid) > 0)

theorem checkForConflictingDeletions_eq_true_iff (store : List RangeDeletionTask)
    (range : ChunkRange) (uuid : UUID) :
    checkForConflictingDeletions store range uuid = true ↔
      ∃ t, t ∈ store ∧ overlappingRangeQuery range uuid t = true := by
  unfold checkForConflictingDeletions storeCount
  rw [decide_eq_true_iff, gt_iff_lt, List.length_pos_iff_exists_mem]
  constructor
  · rintro ⟨t, ht⟩
    exact ⟨t, (List.mem_filter.mp ht).1, (List.mem_filter.mp ht).2⟩
  · rintro ⟨t, htm, htq⟩
    exact ⟨t, List.mem_filter.mpr ⟨htm, htq⟩⟩

/-- The local node environment consulted by submitRangeDeletionTask:
collection lookup by namespace (AutoGetCollection, giving existence and the
live collection uuid) and whether the shard-filtering metadata is known
(CollectionShardingRuntime::getCurrentMetadataIfKnown). -/
structure LocalCatalog where
  collections : String → Option UUID
  metadataKnown : String → Bool

/-- submitRangeDeletionTask: false when the namespace is not found, false when
the live collection uuid differs from the task's recorded collectionUuid,
false when the filtering metadata is not known; otherwise the range is handed
to the cleanup scheduler and the call returns true. -/
def submitRangeDeletionTask (cat : LocalCatalog) (deletionTask : RangeDeletionTask) : Bool :=
  match cat.collections deletionTask.nss with
  | none => false
  | some liveUuid =>
    if liveUuid != deletionTask.collectionUuid then false
    else if !cat.metadataKnown deletionTask.nss then false
    else true

/-- The query QUERY("pending" $exists false) used by submitPendingDeletions:
selects tasks whose pending field is absent. -/
def readyQuery (t : RangeDeletionTask) : Bool :=
  !t.pendingFlag

/-- The tasks enumerated by store.forEach under readyQuery, i.e. exactly the
tasks handed to submitRangeDeletionTask during submitPendingDeletions. -/
def sweepSubmissions (store : List RangeDeletionTask) : List RangeDeletionTask :=
  store.filter readyQuery

/-- One step of the forEach visitor body: a task for which the submitter
returns false is appended to the invalidRanges accumulator. -/
def sweepStep (cat : LocalCatalog) (invalidRanges : List RangeDeletionTask)
    (t : RangeDeletionTask) : List RangeDeletionTask :=
  if submitRangeDeletionTask cat t then invalidRanges else invalidRanges ++ [t]

/-- The invalidRanges vector accumulated across the full enumeration. -/
def invalidRangesOf (cat : LocalCatalog) (store : List RangeDeletionTask) :
    List RangeDeletionTask :=
  (sweepSubmissions store).foldl (sweepStep cat) []

/-- store.remove(Query(range.toBSON())): removes every document equal to the
given record. -/
def storeRemoveDoc (store : List RangeDeletionTask) (r : RangeDeletionTask) :
    List RangeDeletionTask :=
  store.filter (fun t => decide (t ≠ r))

/-- submitPendingDeletions: enumerate the ready tasks, collect those the
submitter rejects, and only after the full enumeration remove each collected
task from the store. Returns the resulting store contents. -/
def submitPendingDeletions (cat : LocalCatalog) (store : List RangeDeletionTask) :
    List RangeDeletionTask :=
  (invalidRangesOf cat store).foldl storeRemoveDoc store

theorem foldl_sweepStep (cat : LocalCatalog) (l acc : List RangeDeletionTask) :
    l.foldl (sweepStep cat) acc = acc ++ l.filter (fun t => !submitRangeDeletionTask cat t) := by
  induction l generalizing acc with
  | nil => simp
  | cons t ts ih =>
    rw [List.foldl_cons, ih]
    by_cases h : submitRangeDeletionTask cat t = true
    · simp [sweepStep, h, List.filter_cons]
    · simp only [Bool.not_eq_true] at h
      simp [sweepStep, h, List.filter_cons]

theorem invalidRangesOf_eq (cat : LocalCatalog) (store : List RangeDeletionTask) :
    invalidRangesOf cat store =
      (store.filter readyQuery).filter (fun t => !submitRangeDeletionTask cat t) := by
  rw [invalidRangesOf, sweepSubmissions, foldl_sweepStep, List.nil_append]

theorem foldl_storeRemoveDoc (l store : List RangeDeletionTask) :
    l.foldl storeRemoveDoc store = store.filter (fun t => decide (t ∉ l)) := by
  induction l generalizing store with
  | nil => simp
  | cons r rs ih =>
    rw [List.foldl_cons, ih, storeRemoveDoc, List.filter_filter]
    apply List.filter_congr
    intro t _
    by_cases h1 : t = r <;> by_cases h2 : t ∈ rs <;> simp [h1, h2]

/-- The sweep keeps exactly the tasks that are pending or that the submitter
accepts; every copy of a ready task the submitter rejects is removed. -/
theorem submitPendingDeletions_eq_filter (cat : LocalCatalog)
    (store : List RangeDeletionTask) :
    submitPendingDeletions cat store =
      store.filter (fun t => t.pendingFlag || submitRangeDeletionTask cat t) := by
  rw [submitPendingDeletions, foldl_storeRemoveDoc]
  apply List.filter_congr
  intro t htm
  rw [invalidRangesOf_eq]
  by_cases hp : t.pendingFlag = true <;> by_cases hs : submitRangeDeletionTask cat t = true
  · simp [List.mem_filter, readyQuery, hp, hs]
  · simp [List.mem_filter, readyQuery, hp, hs]
  · simp [List.mem_filter, readyQuery, hp, hs]
  · simp [List.mem_filter, readyQuery, hp, hs, htm]

/-- A sample ready task used as a concrete input. -/
def sampleTaskReady : RangeDeletionTask :=
  { id := 1, collectionUuid := 7, nss := "db.coll",
    range := { min := 10, max := 20 }, pendingFlag := false,
    whenToClean := CleanWhen.kNow }

/-- A sample pending task used as a concrete input. -/
def sampleTaskPending : RangeDeletionTask :=
  { id := 2, collectionUuid := 7, nss := "db.coll",
    range := { min := 30, max := 40 }, pendingFlag := true,
    whenToClean := CleanWhen.kNow }

/-- A catalog in which db.coll exists with uuid 7 and filtering metadata is
known. -/
def sampleCatalog : LocalCatalog :=
  { collections := fun nss => if nss = "db.coll" then some 7 else none,
    metadataKnown := fun _ => true }

/-- A catalog in which db.coll exists with uuid 7 but the shard-filtering
metadata is not known locally. -/
def sampleCatalogNoMetadata : LocalCatalog :=
  { collections := fun nss => if nss = "db.coll" then some 7 else none,
    metadataKnown := fun _ => false }

/-- A catalog in which no collection exists. -/
def sampleCatalogMissing : LocalCatalog :=
  { collections := fun _ => none,
    metadataKnown := fun _ => true }

/-- C3: checkForConflictingDeletions reports an overlap iff some stored task
on the same collection uuid satisfies a.min < b.max and a.max > b.min for the
queried range a and the stored range b; in particular it is false when every
stored range on that uuid is disjoint from a, including the exactly-adjacent
case a.max = b.min, where the conjunct a.max > b.min fails. -/
theorem overlap_check_correct (store : List RangeDeletionTask) (a : ChunkRange) (u : UUID) :
    checkForConflictingDeletions store a u = true ↔
      ∃ t, t ∈ store ∧ t.collectionUuid = u ∧ a.min < t.range.max ∧ a.max > t.range.min := by
  rw [checkForConflictingDeletions_eq_true_iff]
  constructor
  · rintro ⟨t, htm, htq⟩
    simp only [overlappingRangeQuery, Bool.and_eq_true, beq_iff_eq, decide_eq_true_eq] at htq
    exact ⟨t, htm, htq.1.1, htq.2, htq.1.2⟩
  · rintro ⟨t, htm, hu, h1, h2⟩
    refine ⟨t, htm, ?_⟩
    simp only [overlappingRangeQuery, Bool.and_eq_true, beq_iff_eq, decide_eq_true_eq]
    exact ⟨⟨hu, h2⟩, h1⟩

/-- C4 counterexample: the store query of checkForConflictingDeletions does
not exclude the candidate's own record; a store whose only task for uuid 7 is
the candidate's own record (same id and range) makes the check return true,
not false as the claim states. -/
theorem self_overlap_counterexample :
    checkForConflictingDeletions [sampleTaskReady] sampleTaskReady.range 7 = true := by
  decide

/-- C4 amended: checkForConflictingDeletions reports an overlap for any
stored task on the same uuid with an intersecting range, with no exclusion of
the candidate's own record: a store holding only the candidate's own record
yields true whenever the candidate's range is nonempty. -/
theorem overlap_includes_own_record (t : RangeDeletionTask) (u : UUID)
    (hu : t.collectionUuid = u) (hne : t.range.min < t.range.max) :
    checkForConflictingDeletions [t] t.range u = true := by
  rw [checkForConflictingDeletions_eq_true_iff]
  refine ⟨t, List.mem_singleton.mpr rfl, ?_⟩
  simp only [overlappingRangeQuery, Bool.and_eq_true, beq_iff_eq, decide_eq_true_eq, gt_iff_lt]
  exact ⟨⟨hu, hne⟩, hne⟩

theorem overlap_includes_own_record_witness :
    sampleTaskReady.collectionUuid = 7 ∧
      sampleTaskReady.range.min < sampleTaskReady.range.max ∧
      checkForConflictingDeletions [sampleTaskReady] sampleTaskReady.range 7 = true :=
  ⟨rfl, by decide, overlap_includes_own_record sampleTaskReady 7 rfl (by decide)⟩

/-- C2: a task whose pending field is set is never in the ready enumeration
handed to submitRangeDeletionTask, and it survives submitPendingDeletions
untouched in the store. -/
theorem pending_gate (cat : LocalCatalog) (store : List RangeDeletionTask)
    (t : RangeDeletionTask) (ht : t ∈ store) (hp : t.pendingFlag = true) :
    t ∉ sweepSubmissions store ∧ t ∈ submitPendingDeletions cat store := by
  constructor
  · intro hmem
    have hq := (List.mem_filter.mp hmem).2
    simp [readyQuery, hp] at hq
  · rw [submitPendingDeletions_eq_filter]
    exact List.mem_filter.mpr ⟨ht, by simp [hp]⟩

theorem pending_gate_witness :
    sampleTaskPending ∈ [sampleTaskPending] ∧ sampleTaskPending.pendingFlag = true ∧
      (sampleTaskPending ∉ sweepSubmissions [sampleTaskPending] ∧
        sampleTaskPending ∈ submitPendingDeletions sampleCatalog [sampleTaskPending]) :=
  ⟨List.mem_singleton.mpr rfl, rfl,
    pending_gate sampleCatalog [sampleTaskPending] sampleTaskPending
      (List.mem_singleton.mpr rfl) rfl⟩

/-- C6: a ready task whose collection is missing or whose live uuid differs
from the recorded collectionUuid is rejected by submitRangeDeletionTask and
removed from the store by submitPendingDeletions; the accumulated removal set
is computed from the full ready enumeration of the original store, so no
removal happens during enumeration. -/
theorem stale_task_discarded (cat : LocalCatalog) (store : List RangeDeletionTask)
    (t : RangeDeletionTask) (_ht : t ∈ store) (hready : t.pendingFlag = false)
    (hstale : cat.collections t.nss ≠ some t.collectionUuid) :
    submitRangeDeletionTask cat t = false ∧
      t ∉ submitPendingDeletions cat store ∧
      invalidRangesOf cat store =
        (store.filter readyQuery).filter (fun x => !submitRangeDeletionTask cat x) := by
  have hsub : submitRangeDeletionTask cat t = false := by
    unfold submitRangeDeletionTask
    cases hcol : cat.collections t.nss with
    | none => rfl
    | some u =>
      have hne : u ≠ t.collectionUuid := by
        rintro rfl
        exact hstale hcol
      have hb : (u != t.collectionUuid) = true := bne_iff_ne.mpr hne
      simp [hb]
  refine ⟨hsub, ?_, invalidRangesOf_eq cat store⟩
  rw [submitPendingDeletions_eq_filter]
  intro hmem
  have hq := (List.mem_filter.mp hmem).2
  simp [hready, hsub] at hq

theorem stale_task_discarded_witness :
    sampleTaskReady ∈ [sampleTaskReady] ∧ sampleTaskReady.pendingFlag = false ∧
      sampleCatalogMissing.collections sampleTaskReady.nss ≠ some sampleTaskReady.collectionUuid ∧
      (submitRangeDeletionTask sampleCatalogMissing sampleTaskReady = false ∧
        sampleTaskReady ∉ submitPendingDeletions sampleCatalogMissing [sampleTaskReady] ∧
        invalidRangesOf sampleCatalogMissing [sampleTaskReady] =
          (List.filter readyQuery [sampleTaskReady]).filter
            (fun x => !submitRangeDeletionTask sampleCatalogMissing x)) :=
  ⟨List.mem_singleton.mpr rfl, rfl, by decide,
    stale_task_discarded sampleCatalogMissing [sampleTaskReady] sampleTaskReady
      (List.mem_singleton.mpr rfl) rfl (by decide)⟩

/-- C5, at the failing input: a ready task whose collection exists with the
matching uuid but whose filtering metadata is unknown makes
submitRangeDeletionTask return false, and submitPendingDeletions then removes
the task from the store instead of leaving it for retry. -/
theorem metadata_unknown_task_removed :
    submitRangeDeletionTask sampleCatalogNoMetadata sampleTaskReady = false ∧
      submitPendingDeletions sampleCatalogNoMetadata [sampleTaskReady] = [] := by
  constructor
  · decide
  · decide

/-- C8: running submitPendingDeletions twice on an unchanged catalog gives
the same store as running it once, and a task of the original store is kept
exactly when it is pending or accepted by the submitter: stale ready tasks
are removed on the first pass and absent afterwards, and valid or pending
tasks are never removed. -/
theorem sweep_idempotent (cat : LocalCatalog) (store : List RangeDeletionTask)
    (t : RangeDeletionTask) (ht : t ∈ store) :
    submitPendingDeletions cat (submitPendingDeletions cat store) =
        submitPendingDeletions cat store ∧
      (t ∈ submitPendingDeletions cat store ↔
        (t.pendingFlag || submitRangeDeletionTask cat t) = true) := by
  constructor
  · rw [submitPendingDeletions_eq_filter, submitPendingDeletions_eq_filter,
      List.filter_filter]
    apply List.filter_congr
    intro x _
    exact Bool.and_self _
  · rw [submitPendingDeletions_eq_filter]
    simp [List.mem_filter, ht]

theorem sweep_idempotent_witness :
    sampleTaskReady ∈ [sampleTaskReady] ∧
      (submitPendingDeletions sampleCatalog
            (submitPendingDeletions sampleCatalog [sampleTaskReady]) =
          submitPendingDeletions sampleCatalog [sampleTaskReady] ∧
        (sampleTaskReady ∈ submitPendingDeletions sampleCatalog [sampleTaskReady] ↔
          (sampleTaskReady.pendingFlag ||
            submitRangeDeletionTask sampleCatalog sampleTaskReady) = true)) :=
  ⟨List.mem_singleton.mpr rfl,
    sweep_idempotent sampleCatalog [sampleTaskReady] sampleTaskReady
      (List.mem_singleton.mpr rfl)⟩

/-- A persisted MigrationCoordinatorDocument record: migration identity and
donor/recipient linkage. -/
structure MigrationCoordinatorDocument where
  id : UUID
  donorShardId : String
  recipientShardId : String
  nss : String
  collectionUuid : UUID
  range : ChunkRange
deriving DecidableEq, Repr

/-- The storage-level error raised by PersistentTaskStore::add on an insert
whose id already exists (ErrorCodes::DuplicateKey). -/
inductive StoreError where
  | duplicateKey : StoreError
deriving DecidableEq, Repr

/-- PersistentTaskStore::add for the migration coordinators store: inserting
a document whose id already exists raises DuplicateKey. -/
def coordStoreAdd (store : List MigrationCoordinatorDocument)
    (doc : MigrationCoordinatorDocument) :
    Except StoreError (List MigrationCoordinatorDocument) :=
  if store.any (fun x => x.id == doc.id) then Except.error StoreError.duplicateKey
  else Except.ok (store ++ [doc])

/-- PersistentTaskStore::add for the range deletions store. -/
def rangeDeletionStoreAdd (store : List RangeDeletionTask) (t : RangeDeletionTask) :
    Except StoreError (List RangeDeletionTask) :=
  if store.any (fun x => x.id == t.id) then Except.error StoreError.duplicateKey
  else Except.ok (store ++ [t])

/-- persistMigrationCoordinatorLocally: store.add, with DuplicateKey caught
and translated into the anonymous error code 31374. -/
def persistMigrationCoordinatorLocally (store : List MigrationCoordinatorDocument)
    (migrationDoc : MigrationCoordinatorDocument) :
    Except Nat (List MigrationCoordinatorDocument) :=
  match coordStoreAdd store migrationDoc with
  | Except.error StoreError.duplicateKey => Except.error 31374
  | Except.ok s => Except.ok s

/-- persistRangeDeletionTaskLocally: store.add, with DuplicateKey caught and
translated into the anonymous error code 31375. -/
def persistRangeDeletionTaskLocally (store : List RangeDeletionTask)
    (deletionTask : RangeDeletionTask) : Except Nat (List RangeDeletionTask) :=
  match rangeDeletionStoreAdd store deletionTask with
  | Except.error StoreError.duplicateKey => Except.error 31375
  | Except.ok s => Except.ok s

/-- The coordinator store contents after a persist attempt: an error leaves
the store unchanged. -/
def coordStateAfterPersist (store : List MigrationCoordinatorDocument)
    (migrationDoc : MigrationCoordinatorDocument) : List MigrationCoordinatorDocument :=
  match persistMigrationCoordinatorLocally store migrationDoc with
  | Except.ok s => s
  | Except.error _ => store

/-- The range deletion store contents after a persist attempt: an error
leaves the store unchanged. -/
def taskStateAfterPersist (store : List RangeDeletionTask)
    (deletionTask : RangeDeletionTask) : List RangeDeletionTask :=
  match persistRangeDeletionTaskLocally store deletionTask with
  | Except.ok s => s
  | Except.error _ => store

/-- The stored tasks whose id equals the given migration id. -/
def tasksFor (store : List RangeDeletionTask) (m : UUID) : List RangeDeletionTask :=
  store.filter (fun t => t.id == m)

/-- Number of stored tasks with the given id. -/
def countById (store : List RangeDeletionTask) (m : UUID) : Nat :=
  (tasksFor store m).length

/-- Number of stored coordinator documents with the given id. -/
def coordCountById (store : List MigrationCoordinatorDocument) (m : UUID) : Nat :=
  (store.filter (fun x => x.id == m)).length

theorem coord_any_of_count_one (store : List MigrationCoordinatorDocument) (m : UUID)
    (h : coordCountById store m = 1) : store.any (fun x => x.id == m) = true := by
  rw [List.any_eq_true]
  have hpos : 0 < (store.filter (fun x => x.id == m)).length := by
    rw [coordCountById] at h
    omega
  obtain ⟨x, hx⟩ := List.exists_mem_of_length_pos hpos
  exact ⟨x, (List.mem_filter.mp hx).1, (List.mem_filter.mp hx).2⟩

theorem task_any_of_count_one (store : List RangeDeletionTask) (m : UUID)
    (h : countById store m = 1) : store.any (fun x => x.id == m) = true := by
  rw [List.any_eq_true]
  have hpos : 0 < (store.filter (fun t => t.id == m)).length := by
    rw [countById, tasksFor] at h
    omega
  obtain ⟨x, hx⟩ := List.exists_mem_of_length_pos hpos
  exact ⟨x, (List.mem_filter.mp hx).1, (List.mem_filter.mp hx).2⟩

/-- C7: inserting a coordinator document or a range deletion task whose
migration id already exists yields the named duplicate-intent codes 31374 and
31375 rather than the raw DuplicateKey, and the store still holds exactly one
document for that id afterwards. -/
theorem duplicate_intent (cstore : List MigrationCoordinatorDocument)
    (tstore : List RangeDeletionTask)
    (d : MigrationCoordinatorDocument) (t : RangeDeletionTask)
    (hc : coordCountById cstore d.id = 1) (ht : countById tstore t.id = 1) :
    persistMigrationCoordinatorLocally cstore d = Except.error 31374 ∧
      persistRangeDeletionTaskLocally tstore t = Except.error 31375 ∧
      coordCountById (coordStateAfterPersist cstore d) d.id = 1 ∧
      countById (taskStateAfterPersist tstore t) t.id = 1 := by
  have hca := coord_any_of_count_one cstore d.id hc
  have hta := task_any_of_count_one tstore t.id ht
  have h1 : persistMigrationCoordinatorLocally cstore d = Except.error 31374 := by
    rw [persistMigrationCoordinatorLocally, coordStoreAdd, if_pos hca]
  have h2 : persistRangeDeletionTaskLocally tstore t = Except.error 31375 := by
    rw [persistRangeDeletionTaskLocally, rangeDeletionStoreAdd, if_pos hta]
  refine ⟨h1, h2, ?_, ?_⟩
  · rw [coordStateAfterPersist, h1]
    exact hc
  · rw [taskStateAfterPersist, h2]
    exact ht

/-- A sample coordinator document for concrete evaluation. -/
def sampleCoordinatorDoc : MigrationCoordinatorDocument :=
  { id := 1, donorShardId := "shard0", recipientShardId := "shard1",
    nss := "db.coll", collectionUuid := 7, range := { min := 10, max := 20 } }

theorem duplicate_intent_witness :
    coordCountById [sampleCoordinatorDoc] sampleCoordinatorDoc.id = 1 ∧
      countById [sampleTaskPending] sampleTaskPending.id = 1 ∧
      (persistMigrationCoordinatorLocally [sampleCoordinatorDoc] sampleCoordinatorDoc =
          Except.error 31374 ∧
        persistRangeDeletionTaskLocally [sampleTaskPending] sampleTaskPending =
          Except.error 31375 ∧
        coordCountById (coordStateAfterPersist [sampleCoordinatorDoc] sampleCoordinatorDoc)
            sampleCoordinatorDoc.id = 1 ∧
        countById (taskStateAfterPersist [sampleTaskPending] sampleTaskPending)
            sampleTaskPending.id = 1) :=
  ⟨rfl, rfl,
    duplicate_intent [sampleCoordinatorDoc] [sampleTaskPending]
      sampleCoordinatorDoc sampleTaskPending rfl rfl⟩

/-- markAsReadyRangeDeletionTaskLocally: store.update with the query
id = migrationId and the update $unset pending, multi not set, so the first
matching document has its pending field removed and nothing else changes. -/
def markAsReadyRangeDeletionTaskLocally :
    List RangeDeletionTask → UUID → List RangeDeletionTask
  | [], _ => []
  | t :: ts, migrationId =>
    if t.id = migrationId then { t with pendingFlag := false } :: ts
    else t :: markAsReadyRangeDeletionTaskLocally ts migrationId

theorem markAsReady_length (store : List RangeDeletionTask) (m : UUID) :
    (markAsReadyRangeDeletionTaskLocally store m).length = store.length := by
  induction store with
  | nil => rfl
  | cons t ts ih =>
    by_cases h : t.id = m <;> simp [markAsReadyRangeDeletionTaskLocally, h, ih]

/-- C9: markAsReadyRangeDeletionTaskLocally preserves the store's length and,
position by position, preserves id, collectionUuid, namespace, range and
whenToClean; the pending flag is either unchanged or cleared, the latter only
on a task whose id equals the migration id. -/
theorem mark_ready_frame (store : List RangeDeletionTask) (m : UUID) (i : Nat)
    (t u : RangeDeletionTask)
    (ht : store.get? i = some t)
    (hu : (markAsReadyRangeDeletionTaskLocally store m).get? i = some u) :
    (markAsReadyRangeDeletionTaskLocally store m).length = store.length ∧
      u.id = t.id ∧ u.collectionUuid = t.collectionUuid ∧ u.nss = t.nss ∧
      u.range = t.range ∧ u.whenToClean = t.whenToClean ∧
      (u.pendingFlag = t.pendingFlag ∨ (t.id = m ∧ u.pendingFlag = false)) := by
  refine ⟨markAsReady_length store m, ?_⟩
  induction store generalizing i with
  | nil => simp at ht
  | cons a ts ih =>
    by_cases h : a.id = m
    · rw [markAsReadyRangeDeletionTaskLocally, if_pos h] at hu
      cases i with
      | zero =>
        rw [List.get?_cons_zero, Option.some_inj] at ht hu
        subst ht
        subst hu
        exact ⟨rfl, rfl, rfl, rfl, rfl, Or.inr ⟨h, rfl⟩⟩
      | succ n =>
        rw [List.get?_cons_succ] at ht hu
        rw [ht, Option.some_inj] at hu
        subst hu
        exact ⟨rfl, rfl, rfl, rfl, rfl, Or.inl rfl⟩
    · rw [markAsReadyRangeDeletionTaskLocally, if_neg h] at hu
      cases i with
      | zero =>
        rw [List.get?_cons_zero, Option.some_inj] at ht hu
        subst ht
        subst hu
        exact ⟨rfl, rfl, rfl, rfl, rfl, Or.inl rfl⟩
      | succ n =>
        rw [List.get?_cons_succ] at ht hu
        exact ih n ht hu

/-- The sample pending task after its pending field has been unset. -/
def sampleTaskPendingCleared : RangeDeletionTask :=
  { sampleTaskPending with pendingFlag := false }

theorem mark_ready_frame_witness :
    [sampleTaskPending].get? 0 = some sampleTaskPending ∧
      (markAsReadyRangeDeletionTaskLocally [sampleTaskPending] 2).get? 0 =
        some sampleTaskPendingCleared ∧
      ((markAsReadyRangeDeletionTaskLocally [sampleTaskPending] 2).length =
          ([sampleTaskPending] : List RangeDeletionTask).length ∧
        sampleTaskPendingCleared.id = sampleTaskPending.id ∧
        sampleTaskPendingCleared.collectionUuid = sampleTaskPending.collectionUuid ∧
        sampleTaskPendingCleared.nss = sampleTaskPending.nss ∧
        sampleTaskPendingCleared.range = sampleTaskPending.range ∧
        sampleTaskPendingCleared.whenToClean = sampleTaskPending.whenToClean ∧
        (sampleTaskPendingCleared.pendingFlag = sampleTaskPending.pendingFlag ∨
          (sampleTaskPending.id = 2 ∧ sampleTaskPendingCleared.pendingFlag = false))) :=
  ⟨rfl, rfl,
    mark_ready_frame [sampleTaskPending] 2 0 sampleTaskPending sampleTaskPendingCleared
      rfl rfl⟩

/-- deleteRangeDeletionTaskLocally: store.remove with the query
id = deletionTaskId, removing every matching document. -/
def deleteRangeDeletionTaskLocally (store : List RangeDeletionTask)
    (deletionTaskId : UUID) : List RangeDeletionTask :=
  store.filter (fun t => decide (t.id ≠ deletionTaskId))

/-- The effect on the recipient's store of the delete op sent by
deleteRangeDeletionTaskOnRecipient: a delete of the document with
_id = migrationId and multi false, so only the first match is removed. -/
def deleteOneById : List RangeDeletionTask → UUID → List RangeDeletionTask
  | [], _ => []
  | t :: ts, migrationId =>
    if t.id = migrationId then ts else t :: deleteOneById ts migrationId

/-- The two stores the coordinator protocol touches: the donor node's
config.rangeDeletions and the recipient node's config.rangeDeletions. -/
structure NodeStores where
  donorTasks : List RangeDeletionTask
  recipientTasks : List RangeDeletionTask
deriving DecidableEq, Repr

/-- deleteRangeDeletionTaskOnRecipient: sends the single-document delete by
migration id to the recipient node. -/
def deleteRangeDeletionTaskOnRecipient (s : NodeStores) (migrationId : UUID) : NodeStores :=
  { s with recipientTasks := deleteOneById s.recipientTasks migrationId }

/-- markAsReadyRangeDeletionTaskOnRecipient: sends the single-document update
that unsets the pending field, by migration id, to the recipient node. -/
def markAsReadyRangeDeletionTaskOnRecipient (s : NodeStores) (migrationId : UUID) : NodeStores :=
  { s with recipientTasks := markAsReadyRangeDeletionTaskLocally s.recipientTasks migrationId }

/-- Modelled from the spec: the body of
MigrationCoordinator::commitMigrationOnDonorAndRecipient is not under src
(only its declaration and doc comment in the MigrationCoordinator header).
Per that doc comment and the spec, commit deletes the range deletion task on
the recipient via deleteRangeDeletionTaskOnRecipient, then clears the pending
flag on the donor's own task via markAsReadyRangeDeletionTaskLocally. -/
def commitMigrationOnDonorAndRecipient (s : NodeStores) (migrationId : UUID) : NodeStores :=
  let s1 := deleteRangeDeletionTaskOnRecipient s migrationId
  { s1 with donorTasks := markAsReadyRangeDeletionTaskLocally s1.donorTasks migrationId }

/-- Modelled from the spec: the body of
MigrationCoordinator::abortMigrationOnDonorAndRecipient is not under src
(only its declaration and doc comment in the MigrationCoordinator header).
Per that doc comment and the spec, abort deletes the donor's own task via
deleteRangeDeletionTaskLocally, then clears the pending flag on the
recipient's task via markAsReadyRangeDeletionTaskOnRecipient. -/
def abortMigrationOnDonorAndRecipient (s : NodeStores) (migrationId : UUID) : NodeStores :=
  let s1 : NodeStores :=
    { s with donorTasks := deleteRangeDeletionTaskLocally s.donorTasks migrationId }
  markAsReadyRangeDeletionTaskOnRecipient s1 migrationId

theorem tasksFor_deleteLocally (store : List RangeDeletionTask) (m : UUID) :
    tasksFor (deleteRangeDeletionTaskLocally store m) m = [] := by
  unfold tasksFor deleteRangeDeletionTaskLocally
  rw [List.filter_filter]
  rw [List.filter_eq_nil_iff]
  intro a _
  by_cases h : a.id = m <;> simp [h]

theorem tasksFor_deleteOneById (store : List RangeDeletionTask) (m : UUID)
    (h : countById store m = 1) : tasksFor (deleteOneById store m) m = [] := by
  induction store with
  | nil => rfl
  | cons t ts ih =>
    by_cases ht : t.id = m
    · rw [deleteOneById, if_pos ht]
      rw [countById, tasksFor, List.filter_cons] at h
      simp only [ht, beq_self_eq_true, if_pos] at h
      simp at h
      rw [tasksFor, List.filter_eq_nil_iff]
      intro a ha
      simp [h a ha]
    · rw [deleteOneById, if_neg ht, tasksFor, List.filter_cons]
      have hb : (t.id == m) = false := by simp [ht]
      rw [hb]
      simp only [Bool.false_eq_true, if_neg]
      apply ih
      rw [countById, tasksFor, List.filter_cons, hb] at h
      simp only [Bool.false_eq_true, if_neg] at h
      exact h

theorem tasksFor_markAsReady (store : List RangeDeletionTask) (m : UUID)
    (h : countById store m = 1) :
    tasksFor (markAsReadyRangeDeletionTaskLocally store m) m =
      (tasksFor store m).map (fun t => { t with pendingFlag := false }) := by
  induction store with
  | nil => rfl
  | cons t ts ih =>
    by_cases ht : t.id = m
    · rw [markAsReadyRangeDeletionTaskLocally, if_pos ht]
      rw [countById, tasksFor, List.filter_cons] at h
      simp only [ht, beq_self_eq_true, if_pos] at h
      simp at h
      have hnil : List.filter (fun x : RangeDeletionTask => x.id == m) ts = [] := by
        rw [List.filter_eq_nil_iff]
        intro a ha
        simp [h a ha]
      rw [tasksFor, tasksFor, List.filter_cons, List.filter_cons]
      simp only [ht, beq_self_eq_true, if_pos, hnil, List.map_cons, List.map_nil]
    · rw [markAsReadyRangeDeletionTaskLocally, if_neg ht]
      have hb : (t.id == m) = false := by simp [ht]
      rw [tasksFor, tasksFor, List.filter_cons, List.filter_cons, hb]
      simp only [Bool.false_eq_true, if_neg]
      apply ih
      rw [countById, tasksFor, List.filter_cons, hb] at h
      simp only [Bool.false_eq_true, if_neg] at h
      exact h

/-- C1: for a started migration with id M (one task for M on each node, the
donor's written by startMigration as pending), commit leaves the donor's task
for M present with its pending flag cleared and removes the recipient's task
for M; abort removes the donor's task for M and leaves the recipient's task
for M present with its pending flag cleared. -/
theorem commit_abort_symmetry (s : NodeStores) (M : UUID)
    (hd : countById s.donorTasks M = 1) (hr : countById s.recipientTasks M = 1) :
    countById (commitMigrationOnDonorAndRecipient s M).donorTasks M = 1 ∧
      (tasksFor (commitMigrationOnDonorAndRecipient s M).donorTasks M).all
        (fun t => !t.pendingFlag) = true ∧
      countById (commitMigrationOnDonorAndRecipient s M).recipientTasks M = 0 ∧
      countById (abortMigrationOnDonorAndRecipient s M).donorTasks M = 0 ∧
      countById (abortMigrationOnDonorAndRecipient s M).recipientTasks M = 1 ∧
      (tasksFor (abortMigrationOnDonorAndRecipient s M).recipientTasks M).all
        (fun t => !t.pendingFlag) = true := by
  have hcommitDonor : (commitMigrationOnDonorAndRecipient s M).donorTasks =
      markAsReadyRangeDeletionTaskLocally s.donorTasks M := rfl
  have hcommitRecip : (commitMigrationOnDonorAndRecipient s M).recipientTasks =
      deleteOneById s.recipientTasks M := rfl
  have habortDonor : (abortMigrationOnDonorAndRecipient s M).donorTasks =
      deleteRangeDeletionTaskLocally s.donorTasks M := rfl
  have habortRecip : (abortMigrationOnDonorAndRecipient s M).recipientTasks =
      markAsReadyRangeDeletionTaskLocally s.recipientTasks M := rfl
  have hdmark := tasksFor_markAsReady s.donorTasks M hd
  have hrmark := tasksFor_markAsReady s.recipientTasks M hr
  refine ⟨?_, ?_, ?_, ?_, ?_, ?_⟩
  · rw [countById, hcommitDonor, hdmark, List.length_map]
    exact hd
  · rw [hcommitDonor, hdmark]
    simp [List.all_eq_true]
  · rw [countById, hcommitRecip, tasksFor_deleteOneById s.recipientTasks M hr]
    rfl
  · rw [countById, habortDonor, tasksFor_deleteLocally]
    rfl
  · rw [countById, habortRecip, hrmark, List.length_map]
    exact hr
  · rw [habortRecip, hrmark]
    simp [List.all_eq_true]

/-- A started-migration state with one pending task for migration id 2 on
each node. -/
def sampleStartedState : NodeStores :=
  { donorTasks := [sampleTaskPending], recipientTasks := [sampleTaskPending] }

theorem commit_abort_symmetry_witness :
    countById sampleStartedState.donorTasks 2 = 1 ∧
      countById sampleStartedState.recipientTasks 2 = 1 ∧
      (countById (commitMigrationOnDonorAndRecipient sampleStartedState 2).donorTasks 2 = 1 ∧
        (tasksFor (commitMigrationOnDonorAndRecipient sampleStartedState 2).donorTasks 2).all
          (fun t => !t.pendingFlag) = true ∧
        countById (commitMigrationOnDonorAndRecipient sampleStartedState 2).recipientTasks 2 = 0 ∧
        countById (abortMigrationOnDonorAndRecipient sampleStartedState 2).donorTasks 2 = 0 ∧
        countById (abortMigrationOnDonorAndRecipient sampleStartedState 2).recipientTasks 2 = 1 ∧
        (tasksFor (abortMigrationOnDonorAndRecipient sampleStartedState 2).recipientTasks 2).all
          (fun t => !t.pendingFlag) = true) :=
  ⟨rfl, rfl, commit_abort_symmetry sampleStartedState 2 rfl rfl⟩

end MigrationUtil

namespace RWCDefaults

/-- Read concern levels (repl::ReadConcernLevel). -/
inductive ReadConcernLevel where
  | kLocal : ReadConcernLevel
  | kMajority : ReadConcernLevel
  | kAvailable : ReadConcernLevel
  | kSnapshot : ReadConcernLevel
  | kLinearizable : ReadConcernLevel
deriving DecidableEq, Repr

/-- repl::ReadConcernArgs: the level and the presence of the three optional
timestamp arguments. -/
structure ReadConcern where
  level : ReadConcernLevel
  hasArgsOpTime : Bool
  hasArgsAfterClusterTime : Bool
  hasArgsAtClusterTime : Bool
deriving DecidableEq, Repr

/-- WriteConcernOptions: the named w mode (empty when numeric) and the
numeric node count. -/
structure WriteConcern where
  wMode : String
  wNumNodes : Int
deriving DecidableEq, Repr

/-- kReadConcernLevelsDisallowedAsDefault from the source. -/
def kReadConcernLevelsDisallowedAsDefault : List ReadConcernLevel :=
  [ReadConcernLevel.kSnapshot, ReadConcernLevel.kLinearizable]

/-- isSuitableReadConcernLevel: false exactly for the banned levels. -/
def isSuitableReadConcernLevel (level : ReadConcernLevel) : Bool :=
  !(kReadConcernLevelsDisallowedAsDefault.any (fun banned => level == banned))

/-- checkSuitabilityAsDefault for a read concern, as a predicate: the level
is suitable and none of afterOpTime, afterClusterTime, atClusterTime is set.
The source uasserts BadValue when this is false. -/
def readConcernSuitable (rc : ReadConcern) : Bool :=
  isSuitableReadConcernLevel rc.level && !rc.hasArgsOpTime
    && !rc.hasArgsAfterClusterTime && !rc.hasArgsAtClusterTime

/-- checkSuitabilityAsDefault for a write concern, as a predicate: not an
unacknowledged write concern. -/
def writeConcernSuitable (wc : WriteConcern) : Bool :=
  !(wc.wMode == "" && decide (wc.wNumNodes < 1))

/-- The stored cluster-wide defaults document (RWConcernDefault). -/
structure RWConcernDefault where
  defaultReadConcern : Option ReadConcern
  defaultWriteConcern : Option WriteConcern
  epoch : Nat
  setTime : Nat
  localSetTime : Nat
deriving DecidableEq, Repr

/-- The failure modes of setConcerns: the invariant that at least one concern
is supplied, and the BadValue uasserts of the suitability checks. -/
inductive SetConcernsError where
  | invariantFailure : SetConcernsError
  | badValue : SetConcernsError
deriving DecidableEq, Repr

/-- ReadWriteConcernDefaults::setConcerns. current is the value _getDefault
returns at the call; epoch and now stand for the cluster time and clock
readings. Builds the new default from the supplied concerns, then carries the
current default's read (resp. write) concern forward when rc (resp. wc) was
not supplied and a current default exists, and stores the result. -/
def setConcerns (current : Option RWConcernDefault) (rc : Option ReadConcern)
    (wc : Option WriteConcern) (epoch now : Nat) :
    Except SetConcernsError RWConcernDefault :=
  if rc.isNone && wc.isNone then Except.error SetConcernsError.invariantFailure
  else if rc.any (fun r => !readConcernSuitable r) then
    Except.error SetConcernsError.badValue
  else if wc.any (fun w => !writeConcernSuitable w) then
    Except.error SetConcernsError.badValue
  else
    let rwc0 : RWConcernDefault :=
      { defaultReadConcern := rc, defaultWriteConcern := wc,
        epoch := epoch, setTime := now, localSetTime := now }
    let rwc1 : RWConcernDefault :=
      match rc, current with
      | none, some c => { rwc0 with defaultReadConcern := c.defaultReadConcern }
      | _, _ => rwc0
    let rwc2 : RWConcernDefault :=
      match wc, current with
      | none, some c => { rwc1 with defaultWriteConcern := c.defaultWriteConcern }
      | _, _ => rwc1
    Except.ok rwc2

/-- C10: when only one of the two concerns is supplied while a current
default exists, setConcerns carries the current default's value of the
unsupplied concern into the stored result, and supplying neither trips the
invariant. -/
theorem setConcerns_carries_forward (c : RWConcernDefault) (r : ReadConcern)
    (w : WriteConcern) (epoch now : Nat)
    (hr : readConcernSuitable r = true) (hw : writeConcernSuitable w = true) :
    setConcerns (some c) none (some w) epoch now =
        Except.ok { defaultReadConcern := c.defaultReadConcern,
                    defaultWriteConcern := some w,
                    epoch := epoch, setTime := now, localSetTime := now } ∧
      setConcerns (some c) (some r) none epoch now =
        Except.ok { defaultReadConcern := some r,
                    defaultWriteConcern := c.defaultWriteConcern,
                    epoch := epoch, setTime := now, localSetTime := now } ∧
      setConcerns (some c) none none epoch now =
        Except.error SetConcernsError.invariantFailure := by
  refine ⟨?_, ?_, rfl⟩
  · unfold setConcerns
    simp [hw]
  · unfold setConcerns
    simp [hr]

/-- The read concern half of the sample stored default. -/
def sampleStoredReadConcern : ReadConcern :=
  { level := ReadConcernLevel.kLocal, hasArgsOpTime := false,
    hasArgsAfterClusterTime := false, hasArgsAtClusterTime := false }

/-- The write concern half of the sample stored default. -/
def sampleStoredWriteConcern : WriteConcern :=
  { wMode := "majority", wNumNodes := 0 }

/-- A sample stored default with both halves set. -/
def sampleDefault : RWConcernDefault :=
  { defaultReadConcern := some sampleStoredReadConcern,
    defaultWriteConcern := some sampleStoredWriteConcern,
    epoch := 1, setTime := 1, localSetTime := 1 }

/-- A sample suitable read concern. -/
def sampleReadConcern : ReadConcern :=
  { level := ReadConcernLevel.kMajority, hasArgsOpTime := false,
    hasArgsAfterClusterTime := false, hasArgsAtClusterTime := false }

/-- A sample suitable write concern. -/
def sampleWriteConcern : WriteConcern :=
  { wMode := "", wNumNodes := 2 }

theorem setConcerns_carries_forward_witness :
    readConcernSuitable sampleReadConcern = true ∧
      writeConcernSuitable sampleWriteConcern = true ∧
      (setConcerns (some sampleDefault) none (some sampleWriteConcern) 5 6 =
          Except.ok { defaultReadConcern := sampleDefault.defaultReadConcern,
                      defaultWriteConcern := some sampleWriteConcern,
                      epoch := 5, setTime := 6, localSetTime := 6 } ∧
        setConcerns (some sampleDefault) (some sampleReadConcern) none 5 6 =
          Except.ok { defaultReadConcern := some sampleReadConcern,
                      defaultWriteConcern := sampleDefault.defaultWriteConcern,
                      epoch := 5, setTime := 6, localSetTime := 6 } ∧
        setConcerns (some sampleDefault) none none 5 6 =
          Except.error SetConcernsError.invariantFailure) :=
  ⟨rfl, by decide,
    setConcerns_carries_forward sampleDefault sampleReadConcern sampleWriteConcern 5 6
      rfl (by decide)⟩

end RWCDefaults
